import Mathlib

/-
  Verification development for the glojure reader (src/lang/LispReader.go).

  The Go file is shallowly embedded: every Go function in scope is translated
  to a computable Lean definition over an explicit reader state.  Go interface
  values flowing through the reader (forms, the two random int sentinels, the
  *LispReader and *bufio.Reader pointers, nil) are modelled by one inductive
  type GoVal; Go slices of forms are modelled by the consv/endv constructors.
  Go panics (including Util.SneakyThrow) are modelled as Except errors carrying
  the panic message, paired with the reader state at the moment of the panic.
  bufio.Reader semantics are modelled exactly: UnreadRune succeeds only if the
  most recent operation was a successful ReadRune, otherwise it fails (and the
  Go code turns that failure into a thrown error via Util.SneakyThrow).

  External collaborators that are not under src/ are modelled from the spec
  and are marked as such in their doc comments: the map-construction
  collaborator (RT.Map), the interning boundary (InternSymbol/InternKeyword),
  and the namespace-resolution boundary (Compiler.CurrentNS / NamespaceFor).
  Process-random sentinel ints (READ_EOF / READ_FINISHED), the dynamic
  read-eval Var, the dispatch-macro table and the constructor-tag fallback
  reader are carried in an Env parameter so that theorems can quantify over
  them; stdEnv instantiates them to the values fixed by the source.
-/

namespace GlojureReader

/-- Panic messages raised by the reader; Go panics are modelled as errors. -/
abbrev Err := String

/-- One Go interface value as it flows through the reader: parsed forms,
    the int sentinels, nil, and the two reader pointers that the source
    compares against (the *LispReader returned by comment/discard handlers
    and the *bufio.Reader field that Read tests for continue-scanning).
    A float64 result carries the source token text, since only the
    precision class of the result matters to the properties below.
    Slices and persistent collections of forms are encoded with consv/endv. -/
inductive GoVal
  | nilv
  | boolv (b : Bool)
  | intv (n : Int)
  | floatv (tok : String)
  | strv (s : String)
  | symv (ns nm : String)
  | kwv (ns nm : String)
  | regexv (src : String)
  | listv (elems : GoVal)
  | vecv (elems : GoVal)
  | mapv (elems : GoVal)
  | consv (hd tl : GoVal)
  | endv
  | lispReaderPtr
  | bufReaderPtr
deriving DecidableEq, Repr

/-- State of the buffered rune source: the remaining input, plus the bufio
    bookkeeping that decides whether UnreadRune is currently legal (it is
    legal exactly when the most recent operation was a successful ReadRune,
    in which case last holds the rune that would be pushed back). -/
structure Rdr where
  input : List Char
  last : Option Char
deriving DecidableEq, Repr

/-- LispReader.ReadRune: pops one rune; at end of input it reports EOF with
    the zero rune (Go returns the rune zero value alongside io.EOF) and
    invalidates UnreadRune, as bufio does after a failed ReadRune. -/
def Rdr.readRune : Rdr → (Char × Bool) × Rdr
  | ⟨[], _⟩ => ((Char.ofNat 0, true), ⟨[], none⟩)
  | ⟨c :: rest, _⟩ => ((c, false), ⟨rest, some c⟩)

/-- Value of the dynamic read-eval Var as far as the source inspects it
    (LispReader.Read only compares it against the keyword :unknown). -/
inductive REFlag
  | unknown
  | allow
  | disallow
deriving DecidableEq, Repr

/-- The pendingForms interface value passed through Read: Go nil, a
    pointer *list.List (what ensurePending creates via list.New), or a
    list.List value.  The distinction matters because the type switch in
    LispReader.Read matches the value type list.List only. -/
inductive Pending
  | nilp
  | ptrList (q : List GoVal)
  | valList (q : List GoVal)
deriving DecidableEq, Repr

/-- Entries of the primary macro table; a wrapping entry carries the symbol
    stored in its WrappingReader struct. -/
inductive MacroKind
  | stringR
  | commentR
  | wrappingR (sym : GoVal)
  | metaR
  | syntaxQuoteR
  | unquoteR
  | listR
  | unmatchedR
  | vectorR
  | mapR
  | runeR
  | argR
  | dispatchR
deriving DecidableEq, Repr

/-- Entries of the secondary (dispatch) macro table. -/
inductive DMacroKind
  | dmetaR
  | dvarR
  | dregexR
  | dfnR
  | dsetR
  | devalR
  | dcommentR
  | dunreadableR
  | ddiscardR
  | dconditionalR
deriving DecidableEq, Repr

/-- Process- and call-scoped context of one reader run: the two sentinel
    ints drawn by rand.Int at startup, the read-eval flag the dynamic Var
    READEVAL is bound to, the dispatch-macro table and constructor-tag
    fallback (parameters so that theorems can quantify over them; stdEnv
    fixes them to the table and stub of the source), and the
    namespace-resolution boundary used by auto-resolving keywords. -/
structure Env where
  readEof : Int
  readFinished : Int
  readEval : REFlag
  dmTable : Char → Option DMacroKind
  ctorFn : Char → Pending → Rdr → (Except Err GoVal) × Rdr
  resolveNs : String → Option String

/-- Single-quote rune (written by code point to keep literals plain). -/
def squote : Char := Char.ofNat 39

/-- Backquote rune. -/
def btick : Char := Char.ofNat 96

/-- Opening curly-brace rune. -/
def lbrace : Char := Char.ofNat 123

/-- Closing curly-brace rune. -/
def rbrace : Char := Char.ofNat 125

/-- Zero rune, used by Read as the no-delimiter marker rune(0). -/
def zeroCh : Char := Char.ofNat 0

/-- unicode.IsSpace on the Latin-1 range (all input considered here is
    Latin-1): tab, newline, vertical tab, form feed, carriage return,
    space, next-line and no-break space. -/
def isSpaceGo (c : Char) : Bool :=
  c == ' ' || c == '\t' || c == '\n' || c == '\x0b' || c == '\x0c' ||
  c == '\r' || c == '\x85' || c == '\xa0'

/-- unicode.IsDigit on the Latin-1 range: the ASCII decimal digits. -/
def isDigitGo (c : Char) : Bool :=
  48 ≤ c.toNat && c.toNat ≤ 57

/-- The quote symbol interned at startup (InternSymbol with a bare name). -/
def quoteSym : GoVal := .symv "" "quote"

/-- The clojure.core/deref symbol interned at startup. -/
def derefSym : GoVal := .symv "clojure.core" "deref"

/-- The var symbol interned at startup. -/
def theVarSym : GoVal := .symv "" "var"

/-- The fixed primary macro table of the source, keyed by trigger rune. -/
def macroTable (c : Char) : Option MacroKind :=
  if c == '"' then some .stringR
  else if c == ';' then some .commentR
  else if c == squote then some (.wrappingR quoteSym)
  else if c == '@' then some (.wrappingR derefSym)
  else if c == '^' then some .metaR
  else if c == btick then some .syntaxQuoteR
  else if c == '~' then some .unquoteR
  else if c == '(' then some .listR
  else if c == ')' then some .unmatchedR
  else if c == '[' then some .vectorR
  else if c == ']' then some .unmatchedR
  else if c == lbrace then some .mapR
  else if c == rbrace then some .unmatchedR
  else if c == '\\' then some .runeR
  else if c == '%' then some .argR
  else if c == '#' then some .dispatchR
  else none

/-- The fixed secondary dispatch table of the source. -/
def dispatchTableStd (c : Char) : Option DMacroKind :=
  if c == '^' then some .dmetaR
  else if c == squote then some .dvarR
  else if c == '"' then some .dregexR
  else if c == '(' then some .dfnR
  else if c == lbrace then some .dsetR
  else if c == '=' then some .devalR
  else if c == '!' then some .dcommentR
  else if c == '<' then some .dunreadableR
  else if c == '_' then some .ddiscardR
  else if c == '?' then some .dconditionalR
  else none

/-- LispReader.IsMacro: membership in the primary macro table. -/
def isMacroGo (c : Char) : Bool := (macroTable c).isSome

/-- LispReader.IsTerminatingMacro: a macro trigger other than the three
    non-terminating ones. -/
def isTerminatingMacroGo (c : Char) : Bool :=
  c != '#' && c != squote && c != '%' && isMacroGo c

/-- Message produced when bufio.Reader.UnreadRune is called while illegal;
    LispReader.UnreadRune rethrows it via Util.SneakyThrow. -/
def unreadRuneFailureMsg : Err := "bufio: invalid use of UnreadRune"

/-- Panic message of the read-eval gate at the top of Read. -/
def readEvalUnknownMsg : Err := "Reading disallowed - *read-eval* bound to :unknown"

/-- Panic message for EOF at top of Read or inside ReadDelimitedList. -/
def eofWhileReadingMsg : Err := "EOF while reading"

/-- Panic message of DispatchReader when input ends right after the hash. -/
def eofCharacterMsg : Err := "EOF while reading character"

/-- Panic message of StringReader at EOF. -/
def eofStringMsg : Err := "EOF while reading string"

/-- Panic message of RegexReader at EOF. -/
def eofRegexMsg : Err := "EOF while reading regex"

/-- Panic message of MapReader on an odd number of forms. -/
def mapOddMsg : Err := "Map literal must contain an even number of forms."

/-- The initial ReadRune of Read fused with its whitespace-skipping loop:
    returns the first non-space rune (with the EOF flag) and the state
    after it, exactly as the loop at the top of Read leaves them. -/
def skipSpacesRead : List Char → (Char × Bool) × Rdr
  | [] => ((zeroCh, true), ⟨[], none⟩)
  | c :: rest =>
    if isSpaceGo c then skipSpacesRead rest
    else ((c, false), ⟨rest, some c⟩)

/-- Loop body of LispReader.ReadToken: accumulate until whitespace, EOF or
    a terminating macro rune, then UnreadRune.  At EOF the source still
    calls UnreadRune, which bufio rejects, so the token read fails there. -/
def readTokenLoop (acc : String) : List Char → (Except Err String) × Rdr
  | [] => (.error unreadRuneFailureMsg, ⟨[], none⟩)
  | c :: rest =>
    if isSpaceGo c || isTerminatingMacroGo c then (.ok acc, ⟨c :: rest, none⟩)
    else readTokenLoop (acc.push c) rest

/-- LispReader.ReadToken, entered after Read consumed the initial rune. -/
def readTokenGo (initch : Char) (rdr : Rdr) : (Except Err String) × Rdr :=
  readTokenLoop (String.singleton initch) rdr.input

/-- Loop body of LispReader.ReadNumber as written in the source: it stops on
    whitespace, EOF or any macro rune, but each iteration appends the
    initial rune initch to the buffer rather than the rune just read, and
    at EOF it calls UnreadRune, which bufio rejects. -/
def readNumberLoop (initch : Char) (acc : String) : List Char → (Except Err String) × Rdr
  | [] => (.error unreadRuneFailureMsg, ⟨[], none⟩)
  | c :: rest =>
    if isSpaceGo c || isMacroGo c then (.ok acc, ⟨c :: rest, none⟩)
    else readNumberLoop initch (acc.push initch) rest

/-- Numeric value of a run of ASCII digits. -/
def digitsVal (ds : List Char) : Nat :=
  ds.foldl (fun a c => a * 10 + (c.toNat - 48)) 0

/-- strconv.ParseInt with base 10 and bit size 64: an optional sign, then a
    nonempty run of ASCII digits, with the int64 range check. -/
def goParseInt10 (s : String) : Option Int :=
  match s.toList with
  | [] => none
  | c :: rest =>
    let neg : Bool := c == '-'
    let ds : List Char := if c == '-' || c == '+' then rest else c :: rest
    if ds.isEmpty || !(ds.all isDigitGo) then none
    else
      let n : Nat := digitsVal ds
      if neg then (if n ≤ 2 ^ 63 then some (-(n : Int)) else none)
      else (if n ≤ 2 ^ 63 - 1 then some (n : Int) else none)

/-- Lower-cases ASCII letters, for the special float spellings. -/
def lowerList (l : List Char) : List Char :=
  l.map (fun c => if 65 ≤ c.toNat && c.toNat ≤ 90 then Char.ofNat (c.toNat + 32) else c)

/-- Optional sign dropped from the front of a rune list. -/
def dropSign : List Char → List Char
  | [] => []
  | c :: rest => if c == '-' || c == '+' then rest else c :: rest

/-- Exponent part check for the float grammar: empty, or e/E with an
    optional sign and a nonempty digit run. -/
def expOk : List Char → Bool
  | [] => true
  | e :: r =>
    (e == 'e' || e == 'E') &&
    (let ds := dropSign r
     !ds.isEmpty && ds.all isDigitGo && (dropSign r).length == ds.length)

/-- Mantissa-and-exponent check for the decimal float grammar. -/
def floatBody (l : List Char) : Bool :=
  let ds := l.takeWhile isDigitGo
  let rest1 := l.drop ds.length
  match rest1 with
  | [] => !ds.isEmpty
  | c :: r2 =>
    if c == '.' then
      let fs := r2.takeWhile isDigitGo
      let r3 := r2.drop fs.length
      (!ds.isEmpty || !fs.isEmpty) && expOk r3
    else !ds.isEmpty && expOk rest1

/-- Acceptance of strconv.ParseFloat with bit size 64, restricted to the
    decimal and inf/nan fragment (the hex-float and underscore forms of the
    Go grammar are not exercised by any token considered here). -/
def goParseFloatOk (s : String) : Bool :=
  let l := s.toList
  if l.isEmpty then false
  else
    lowerList l == "nan".toList ||
    lowerList (dropSign l) == "inf".toList ||
    lowerList (dropSign l) == "infinity".toList ||
    floatBody (dropSign l)

/-- LispReader.ReadNumber: run the (buggy) accumulation loop, then try
    ParseInt base 10, then ParseFloat, and fail when both reject. -/
def readNumberGo (initch : Char) (rdr : Rdr) : (Except Err GoVal) × Rdr :=
  match readNumberLoop initch (String.singleton initch) rdr.input with
  | (.error e, r) => (.error e, r)
  | (.ok s, r) =>
    match goParseInt10 s with
    | some n => (.ok (.intv n), r)
    | none =>
      if goParseFloatOk s then (.ok (.floatv s), r)
      else (.error ("Invalid number: " ++ s), r)

/-- Loop of StringReader.Invoke as written in the source, including its
    unfinished escape handling: the seven supported escapes are mapped, a
    u escape merely reads one more rune and appends it (the four-hex-digit
    validation is commented out in the source), and any other escaped rune
    is appended as itself (the unsupported-escape panic is commented out). -/
def stringLoop (acc : String) : List Char → (Except Err GoVal) × Rdr
  | [] => (.error eofStringMsg, ⟨[], none⟩)
  | c :: rest =>
    if c == '"' then (.ok (.strv acc), ⟨rest, some c⟩)
    else if c == '\\' then
      match rest with
      | [] => (.error eofStringMsg, ⟨[], none⟩)
      | e :: rest2 =>
        if e == 't' then stringLoop (acc.push '\t') rest2
        else if e == 'r' then stringLoop (acc.push '\r') rest2
        else if e == 'n' then stringLoop (acc.push '\n') rest2
        else if e == '\\' then stringLoop (acc.push '\\') rest2
        else if e == '"' then stringLoop (acc.push '"') rest2
        else if e == 'b' then stringLoop (acc.push '\x08') rest2
        else if e == 'f' then stringLoop (acc.push '\x0c') rest2
        else if e == 'u' then
          match rest2 with
          | [] => stringLoop (acc.push zeroCh) []
          | d :: rest3 => stringLoop (acc.push d) rest3
        else stringLoop (acc.push e) rest2
    else stringLoop (acc.push c) rest

/-- Loop of RegexReader.Invoke: accumulate until an unescaped double quote,
    keeping backslash pairs verbatim; the compiled pattern is modelled as
    the accumulated source text. -/
def regexLoop (acc : String) : List Char → (Except Err GoVal) × Rdr
  | [] => (.error eofRegexMsg, ⟨[], none⟩)
  | c :: rest =>
    if c == '"' then (.ok (.regexv acc), ⟨rest, some c⟩)
    else if c == '\\' then
      match rest with
      | [] => (.error eofRegexMsg, ⟨[], none⟩)
      | e :: rest2 => regexLoop ((acc.push c).push e) rest2
    else regexLoop (acc.push c) rest

/-- Loop of CommentReader.Invoke: consume up to and including the next
    newline or carriage return, or through EOF. -/
def commentRun : List Char → Rdr
  | [] => ⟨[], none⟩
  | c :: rest => if c == '\n' || c == '\r' then ⟨rest, some c⟩ else commentRun rest

/-- Second group of symbolPat, an alternation preferring the lone slash:
    slash, or a rune that is neither digit nor slash followed by the
    longest run of non-slash runes. -/
def g2At : List Char → Option (List Char)
  | [] => none
  | c :: rest =>
    if c == '/' then some ['/']
    else if isDigitGo c then none
    else some (c :: rest.takeWhile (fun d => d != '/'))

/-- First group of symbolPat (a non-digit non-slash rune, any runes, then a
    slash) followed by the second group, with the greedy dot-star resolved
    the way the Go engine does: later slashes are preferred, the dot does
    not cross a newline, and the first position where the rest of the
    pattern matches wins. -/
def g1Try (c : Char) (rest : List Char) : Option (List Char × List Char) :=
  (((List.range rest.length).filter (fun i =>
      rest.getD i ' ' == '/' && !((rest.take i).any (fun d => d == '\n')))).reverse).findSome?
    (fun i => (g2At (rest.drop (i + 1))).map
      (fun nm => (c :: rest.take (i + 1), nm)))

/-- Body of symbolPat after the optional colon: the optional namespace
    group (preferred when possible) and then the name group.  Returns the
    matched text and the two capture groups. -/
def symAttempt (pfx : List Char) (l : List Char) : Option (List Char × List Char × List Char) :=
  match l with
  | [] => none
  | c :: _ =>
    if c != '/' && !(isDigitGo c) then
      match g1Try c l.tail with
      | some (ns, nm) => some (pfx ++ ns ++ nm, ns, nm)
      | none => (g2At l).map (fun nm => (pfx ++ nm, ([] : List Char), nm))
    else (g2At l).map (fun nm => (pfx ++ nm, ([] : List Char), nm))

/-- symbolPat tried at one position: the optional leading colon is greedy,
    so the colon-consuming attempt is preferred. -/
def matchAtPos (l : List Char) : Option (List Char × List Char × List Char) :=
  match l with
  | ':' :: rest => (symAttempt [':'] rest).orElse (fun _ => symAttempt [] l)
  | _ => symAttempt [] l

/-- FindStringSubmatch of symbolPat: the leftmost position with a match
    wins, per the Go regexp contract. -/
def findSubmatch : List Char → Option (List Char × List Char × List Char)
  | [] => none
  | c :: rest => (matchAtPos (c :: rest)).orElse (fun _ => findSubmatch rest)

/-- strings.Index test for a two-rune needle occurring anywhere. -/
def containsSeq (needle : List Char) : List Char → Bool
  | [] => needle.isEmpty
  | c :: rest => needle.isPrefixOf (c :: rest) || containsSeq needle rest

/-- Modelled from the spec: the interning boundary internSymbol (the Symbol
    class is not under src/).  A slash splits namespace from name; a
    missing namespace is the empty string. -/
def internSymL (l : List Char) : String × String :=
  if l.any (fun c => c == '/') && l != ['/'] then
    let i := l.findIdx (fun c => c == '/')
    (String.mk (l.take i), String.mk (l.drop (i + 1)))
  else ("", String.mk l)

/-- matchSymbol from the source: match symbolPat, reject the ill-formed
    namespace and name shapes (the strings.HasSuffix, HasPrefix and Index
    tests are carried out on the rune lists), then build an auto-resolved
    keyword, a plain keyword, or an interned symbol.  The
    namespace-resolution step of the auto-resolved branch goes through the
    Env boundary, since Compiler.CurrentNS and Compiler.NamespaceFor are
    not under src/. -/
def matchSymbolGo (env : Env) (s : String) : Option GoVal :=
  let l := s.toList
  match findSubmatch l with
  | none => none
  | some (_, nsL, nameL) =>
    if (!nsL.isEmpty && [':', '/'].isSuffixOf nsL) || [':'].isSuffixOf nameL ||
        containsSeq [':', ':'] (l.drop 1) then none
    else if [':', ':'].isPrefixOf l then
      let ks := internSymL (l.drop 2)
      match env.resolveNs ks.1 with
      | some nsName => some (.kwv nsName ks.2)
      | none => none
    else if [':'].isPrefixOf l then
      let sym := internSymL (l.drop 1)
      some (.kwv sym.1 sym.2)
    else
      let sym := internSymL l
      some (.symv sym.1 sym.2)

/-- interpretToken from the source: the three literal tokens, then the
    symbol/keyword grammar, then the invalid-token panic. -/
def interpretTokenGo (env : Env) (s : String) : Except Err GoVal :=
  if s == "nil" then .ok .nilv
  else if s == "true" then .ok (.boolv true)
  else if s == "false" then .ok (.boolv false)
  else
    match matchSymbolGo env s with
    | some v => .ok v
    | none => .error ("Invalid token: " ++ s)

/-- Encoding of a Lean list of forms as a GoVal sequence. -/
def seqOfList : List GoVal → GoVal
  | [] => .endv
  | x :: t => .consv x (seqOfList t)

/-- Decoding of a GoVal sequence back to a Lean list. -/
def seqToList : GoVal → List GoVal
  | .consv h t => h :: seqToList t
  | _ => []

/-- Length of a GoVal sequence. -/
def seqLen : GoVal → Nat
  | .consv _ t => 1 + seqLen t
  | _ => 0

/-- Number of entries of a map form built from a flat key/value sequence. -/
def mapEntries : GoVal → Nat
  | .mapv s => seqLen s / 2
  | _ => 0

/-- Membership of a form in a list of forms. -/
def memGoVal (x : GoVal) : List GoVal → Bool
  | [] => false
  | y :: t => x == y || memGoVal x t

/-- Keys of a flat key/value argument list (the even positions). -/
def mapKeysOf : List GoVal → List GoVal
  | [] => []
  | [k] => [k]
  | k :: _ :: t => k :: mapKeysOf t

/-- Absence of duplicates among map keys. -/
def keysDupFree : List GoVal → Bool
  | [] => true
  | k :: t => !(memGoVal k t) && keysDupFree t

/-- Modelled from the spec: the map-construction collaborator buildMap
    (RT.Map is not under src/).  It receives the flat key/value sequence
    read from the literal and must fail on duplicate keys. -/
def rtMapGo (l : List GoVal) : Except Err GoVal :=
  if keysDupFree (mapKeysOf l) then .ok (.mapv (seqOfList l))
  else .error "Duplicate key"

/-- LispReader.ensurePending: a nil interface becomes a fresh empty
    pointer list (list.New), anything else passes through. -/
def ensurePendingGo : Pending → Pending
  | .nilp => .ptrList []
  | p => p

/-- Go interface equality of a reader result against an int sentinel: true
    exactly when the dynamic type is int and the values agree. -/
def isIntVal (v : GoVal) (n : Int) : Bool :=
  match v with
  | .intv m => m == n
  | _ => false

/-- The mutually recursive entry points of the reader engine, defused into
    one fueled step function: Read before its scan loop, one iteration of
    the scan loop, a primary macro invocation, a dispatch macro invocation,
    and the ReadDelimitedList accumulation loop. -/
inductive RCall
  | rread (eofIsError : Bool) (eofValue : GoVal) (returnOn : Char)
      (returnOnValue : GoVal) (isRecursive : Bool) (pending : Pending)
  | rscan (eofIsError : Bool) (eofValue : GoVal) (returnOn : Char)
      (returnOnValue : GoVal) (isRecursive : Bool) (pending : Pending)
  | rinvoke (k : MacroKind) (ch : Char) (pending : Pending)
  | rdinvoke (k : DMacroKind) (ch : Char) (pending : Pending)
  | rdelim (delim : Char) (isRecursive : Bool) (pending : Pending) (acc : List GoVal)

/-- The reader engine of LispReader.go.  Each RCall branch is the direct
    translation of one source function; the fuel only bounds the mutual
    recursion depth and every theorem below holds for every sufficient
    fuel.  rread is LispReader.Read up to its read-eval gate; rscan is one
    iteration of the for loop of Read (pending-forms type switch, whitespace
    skip, EOF and delimiter checks, number path, macro dispatch with the
    continue-scanning comparison against the bufio pointer, sign lookahead,
    token path); rinvoke and rdinvoke are the Invoke methods of the
    registered reader structs, including the unimplemented ones that just
    return nil; rdelim is LispReader.ReadDelimitedList. -/
def step (env : Env) : Nat → RCall → Rdr → (Except Err GoVal) × Rdr
  | 0, _, rdr => (.error "out of fuel", rdr)
  | n + 1, call, rdr =>
    match call with
    | .rread eie ev ro rov ir p =>
      if env.readEval = .unknown then (.error readEvalUnknownMsg, rdr)
      else step env n (.rscan eie ev ro rov ir p) rdr
    | .rscan eie ev ro rov ir p =>
      match p with
      | .valList (f :: _) => (.ok f, rdr)
      | _ =>
        let ((ch, isEof), rdr1) := skipSpacesRead rdr.input
        if isEof then
          (if eie then (.error eofWhileReadingMsg, rdr1) else (.ok ev, rdr1))
        else if ro != zeroCh && ro == ch then (.ok rov, rdr1)
        else if isDigitGo ch then readNumberGo ch rdr1
        else
          match macroTable ch with
          | some k =>
            match step env n (.rinvoke k ch p) rdr1 with
            | (.error e, r) => (.error e, r)
            | (.ok ret, r) =>
              if ret == .bufReaderPtr then step env n (.rscan eie ev ro rov ir p) r
              else (.ok ret, r)
          | none =>
            if ch == '+' || ch == '-' then
              match rdr1.input with
              | [] => (.error unreadRuneFailureMsg, ⟨[], none⟩)
              | c2 :: rest2 =>
                if isDigitGo c2 then readNumberGo ch ⟨c2 :: rest2, none⟩
                else
                  match readTokenGo ch ⟨c2 :: rest2, none⟩ with
                  | (.error e, r) => (.error e, r)
                  | (.ok tok, r) => (interpretTokenGo env tok, r)
            else
              match readTokenGo ch rdr1 with
              | (.error e, r) => (.error e, r)
              | (.ok tok, r) => (interpretTokenGo env tok, r)
    | .rinvoke k _ p =>
      match k with
      | .stringR => stringLoop "" rdr.input
      | .commentR => (.ok .lispReaderPtr, commentRun rdr.input)
      | .wrappingR _ => (.ok .nilv, rdr)
      | .metaR => (.ok .nilv, rdr)
      | .syntaxQuoteR => (.ok .nilv, rdr)
      | .unquoteR => (.ok .nilv, rdr)
      | .runeR => (.ok .nilv, rdr)
      | .argR => (.ok .nilv, rdr)
      | .unmatchedR => (.ok .nilv, rdr)
      | .listR =>
        match step env n (.rdelim ')' true (ensurePendingGo p) []) rdr with
        | (.error e, r) => (.error e, r)
        | (.ok v, r) => (.ok (.listv v), r)
      | .vectorR =>
        match step env n (.rdelim ']' true (ensurePendingGo p) []) rdr with
        | (.error e, r) => (.error e, r)
        | (.ok v, r) => (.ok (.vecv v), r)
      | .mapR =>
        match step env n (.rdelim rbrace true (ensurePendingGo p) []) rdr with
        | (.error e, r) => (.error e, r)
        | (.ok v, r) =>
          if (seqToList v).length % 2 == 1 then (.error mapOddMsg, r)
          else (rtMapGo (seqToList v), r)
      | .dispatchR =>
        match rdr.readRune with
        | ((_, true), r1) => (.error eofCharacterMsg, r1)
        | ((c2, false), r1) =>
          match env.dmTable c2 with
          | some dk => step env n (.rdinvoke dk c2 p) r1
          | none =>
            match env.ctorFn c2 (ensurePendingGo p) ⟨c2 :: r1.input, none⟩ with
            | (.error e, r3) => (.error e, r3)
            | (.ok v, r3) =>
              if v == .nilv then
                (.error ("No dispatch macro for: " ++ String.singleton c2), r3)
              else (.ok v, r3)
    | .rdinvoke dk _ p =>
      match dk with
      | .dvarR =>
        match step env n (.rread true .nilv zeroCh .nilv true (ensurePendingGo p)) rdr with
        | (.error e, r) => (.error e, r)
        | (.ok o, r) => (.ok (.listv (seqOfList [theVarSym, o])), r)
      | .ddiscardR =>
        match step env n (.rread true .nilv zeroCh .nilv true (ensurePendingGo p)) rdr with
        | (.error e, r) => (.error e, r)
        | (.ok _, r) => (.ok .lispReaderPtr, r)
      | .dcommentR => (.ok .lispReaderPtr, commentRun rdr.input)
      | .dregexR => regexLoop "" rdr.input
      | .dmetaR => (.ok .nilv, rdr)
      | .dfnR => (.ok .nilv, rdr)
      | .dsetR => (.ok .nilv, rdr)
      | .devalR => (.ok .nilv, rdr)
      | .dunreadableR => (.ok .nilv, rdr)
      | .dconditionalR => (.ok .nilv, rdr)
    | .rdelim delim ir p acc =>
      match step env n (.rread false (.intv env.readEof) delim (.intv env.readFinished) ir p) rdr with
      | (.error e, r) => (.error e, r)
      | (.ok form, r) =>
        if isIntVal form env.readEof then (.error eofWhileReadingMsg, r)
        else if isIntVal form env.readFinished then (.ok (seqOfList acc), r)
        else step env n (.rdelim delim ir p (acc ++ [form])) r

/-- LispReader.Read with the caller-facing argument list of the source. -/
def readGo (env : Env) (fuel : Nat) (eofIsError : Bool) (eofValue : GoVal)
    (returnOn : Char) (returnOnValue : GoVal) (isRecursive : Bool)
    (p : Pending) (rdr : Rdr) : (Except Err GoVal) × Rdr :=
  step env fuel (.rread eofIsError eofValue returnOn returnOnValue isRecursive p) rdr

/-- A top-level read over a fresh input: strict at EOF, no delimiter, not
    recursive. -/
def readTop (env : Env) (fuel : Nat) (p : Pending) (input : List Char) :
    (Except Err GoVal) × Rdr :=
  readGo env fuel true .nilv zeroCh .nilv false p ⟨input, none⟩

/-- The constructor-tag fallback reader as it stands in the source: its
    Invoke is a stub returning nil and consuming nothing. -/
def stdCtor : Char → Pending → Rdr → (Except Err GoVal) × Rdr :=
  fun _ _ rdr => (.ok .nilv, rdr)

/-- An Env with the dispatch table and ctor stub of the source, the given
    sentinel draws, and the given read-eval binding; namespace resolution
    is left empty (no namespace registry is in scope). -/
def stdEnv (reof rfin : Int) (re : REFlag) : Env :=
  ⟨reof, rfin, re, dispatchTableStd, stdCtor, fun _ => none⟩

/-- The reference environment for concrete runs: distinct large sentinels
    and read-eval allowed. -/
def envA : Env := stdEnv 1000000000 1000000001 .allow

/-- Claim C1: the claim says that when the comment reader (for semicolon
    input) or the discard reader (for hash-underscore input) signals
    continue scanning, read produces no form and returns the next real
    form, so both inputs below should read as the integer 3.  The code
    disagrees: those handlers return the *LispReader receiver, while the
    continue-scanning test in Read compares the result against the inner
    *bufio.Reader field, which can never be equal, so Read returns the
    reader object itself as the result instead of looping.  Both claimed
    inputs therefore yield the LispReader pointer value, not the form 3. -/
theorem c1_continue_scanning_never_fires :
    readTop envA 100 .nilp (";c\n3 ".toList) =
      (.ok .lispReaderPtr, ⟨['3', ' '], some '\n'⟩) ∧
    readTop envA 100 .nilp ("#_(1 2) 3 ".toList) =
      (.ok .lispReaderPtr, ⟨[' ', '3', ' '], some ')'⟩) ∧
    GoVal.lispReaderPtr ≠ GoVal.intv 3 :=
  ⟨rfl, rfl, by decide⟩

/-- Claim C2: the claim says number reading accumulates each character read
    and matches the hex/decimal grammars, so the token 123 should read as
    the integer 123 and 0x1F as 31.  The accumulation loop of ReadNumber
    instead appends the initial character on every iteration and the result
    is parsed with ParseInt base 10 only, so reading the decimal token
    followed by a space yields 111 and the hex token yields 0. -/
theorem c2_number_accumulation_bug :
    readTop envA 100 .nilp ("123 ".toList) = (.ok (.intv 111), ⟨[' '], none⟩) ∧
    readTop envA 100 .nilp ("0x1F ".toList) = (.ok (.intv 0), ⟨[' '], none⟩) ∧
    (111 : Int) ≠ 123 ∧ (0 : Int) ≠ 31 :=
  ⟨rfl, rfl, by decide, by decide⟩

/-- Claim C3: when the read-eval flag is bound to the unknown sentinel,
    Read fails immediately with the read-eval panic and the reader state is
    returned untouched, for every input, every combination of caller
    arguments and every positive fuel: no character is consumed. -/
theorem c3_read_eval_unknown_blocks_reading (env : Env)
    (h : env.readEval = .unknown) (n : Nat) (eie : Bool) (ev : GoVal)
    (ro : Char) (rov : GoVal) (ir : Bool) (p : Pending) (rdr : Rdr) :
    readGo env (n + 1) eie ev ro rov ir p rdr = (.error readEvalUnknownMsg, rdr) := by
  simp [readGo, step, h]

/-- Witness for claim C3 at a concrete instance: the unknown binding on a
    whitespace-only input fails with the input intact. -/
theorem c3_read_eval_unknown_blocks_reading_witness :
    (stdEnv 7 8 .unknown).readEval = .unknown ∧
    readGo (stdEnv 7 8 .unknown) 4 true .nilv zeroCh .nilv false .nilp ⟨[' ', ' '], none⟩ =
      (.error readEvalUnknownMsg, ⟨[' ', ' '], none⟩) :=
  ⟨rfl, c3_read_eval_unknown_blocks_reading (stdEnv 7 8 .unknown) rfl 3 true
    .nilv zeroCh .nilv false .nilp ⟨[' ', ' '], none⟩⟩

/-- Claim C4: the claim says a non-empty pending-forms queue is dequeued
    FIFO and its head returned without touching the char source.  The
    queues the source actually builds are pointer lists (ensurePending
    returns list.New, a *list.List), but the type switch in Read matches
    the value type list.List only, so the queue is never dequeued: with the
    form 42 pending, Read consumes the character 7 from the stream and
    returns the integer 7 instead of the queued head. -/
theorem c4_pending_queue_never_dequeued :
    ensurePendingGo .nilp = .ptrList [] ∧
    readGo envA 100 true .nilv zeroCh .nilv false (.ptrList [.intv 42]) ⟨"7 ".toList, none⟩ =
      (.ok (.intv 7), ⟨[' '], none⟩) ∧
    GoVal.intv 7 ≠ GoVal.intv 42 :=
  ⟨rfl, rfl, by decide⟩

/-- Claim C5: the claim says a token terminated by end of input is returned
    successfully with nothing pushed back.  ReadToken however calls
    UnreadRune unconditionally, also after a failed ReadRune, and bufio
    rejects that, so reading the EOF-terminated token foo throws the
    UnreadRune failure; the same token followed by a space, where the
    pushback is legal, reads fine. -/
theorem c5_eof_terminated_token_panics :
    readTop envA 100 .nilp ("foo".toList) = (.error unreadRuneFailureMsg, ⟨[], none⟩) ∧
    readTop envA 100 .nilp ("foo ".toList) = (.ok (.symv "" "foo"), ⟨[' '], none⟩) :=
  ⟨rfl, rfl⟩

/-- Claim C6: the claim says the quote trigger wraps the next form f as a
    quote call and the deref trigger as a deref call.  WrappingReader.Invoke
    is an unimplemented stub returning nil without reading anything, so
    both inputs below return nil with the wrapped form still unread. -/
theorem c6_wrapping_reader_stub_returns_nil :
    readTop envA 100 .nilp [squote, 'x'] = (.ok .nilv, ⟨['x'], some squote⟩) ∧
    readTop envA 100 .nilp ['@', 'x'] = (.ok .nilv, ⟨['x'], some '@'⟩) ∧
    GoVal.nilv ≠ GoVal.listv (seqOfList [quoteSym, .symv "" "x"]) ∧
    GoVal.nilv ≠ GoVal.listv (seqOfList [derefSym, .symv "" "x"]) :=
  ⟨rfl, rfl, by decide, by decide⟩

/-- Claim C7: the claim says an unsupported escape and a short unicode
    escape fail.  The escape validation of StringReader is commented out in
    the source: the backslash-q string reads as the one-character string q
    and the short unicode escape reads as the string 41, both succeeding. -/
theorem c7_string_escape_errors_not_raised :
    readTop envA 100 .nilp ("\"\\q\"".toList) = (.ok (.strv "q"), ⟨[], some '"'⟩) ∧
    readTop envA 100 .nilp ("\"\\u41\"".toList) = (.ok (.strv "41"), ⟨[], some '"'⟩) :=
  ⟨rfl, rfl⟩

/-- Claim C8: a map literal with the four forms of the even example reads
    to a map with exactly two entries, and the three-form odd example fails
    with the odd-map-literal panic. -/
theorem c8_map_literal_even_odd :
    readTop envA 100 .nilp (lbrace :: ":a 1 :b 2".toList ++ [rbrace, ' ']) =
      (.ok (.mapv (seqOfList [.kwv "" "a", .intv 1, .kwv "" "b", .intv 2])),
        ⟨[' '], some rbrace⟩) ∧
    mapEntries (.mapv (seqOfList [.kwv "" "a", .intv 1, .kwv "" "b", .intv 2])) = 2 ∧
    readTop envA 100 .nilp (lbrace :: ":a 1 :b".toList ++ [rbrace, ' ']) =
      (.error mapOddMsg, ⟨[' '], some rbrace⟩) :=
  ⟨rfl, rfl, rfl⟩

/-- Claim C9: the claim says no form produced by read can equal the EOF or
    delimiter sentinel.  The sentinels are ints drawn by rand.Int, and 5 is
    a possible draw: in a process where READ_EOF is 5, reading the token 5
    produces a form that Go interface equality identifies with the EOF
    sentinel; in a process where READ_FINISHED is 5, the delimited list
    (5 2) is silently truncated to the empty list because its first element
    compares equal to the finished sentinel. -/
theorem c9_int_form_collides_with_sentinel :
    (0 : Int) ≤ 5 ∧ (5 : Int) < 2 ^ 63 ∧
    readTop (stdEnv 5 6 .allow) 100 .nilp ("5 ".toList) = (.ok (.intv 5), ⟨[' '], none⟩) ∧
    isIntVal (.intv 5) (stdEnv 5 6 .allow).readEof = true ∧
    readTop (stdEnv 1000000000 5 .allow) 100 .nilp ("(5 2) ".toList) =
      (.ok (.listv .endv), ⟨[' ', '2', ')', ' '], none⟩) :=
  ⟨by decide, by decide, rfl, rfl, rfl⟩

/-- Claim C10: if the input ends immediately after the hash trigger, read
    fails with the EOF-while-reading-character panic; the environment is
    arbitrary, so the result holds for every dispatch table and every
    constructor-fallback behavior, showing neither is consulted. -/
theorem c10_hash_eof_fails_before_dispatch (env : Env)
    (h : ¬ env.readEval = .unknown) (n : Nat) :
    readTop env (n + 1 + 1 + 1) .nilp ['#'] = (.error eofCharacterMsg, ⟨[], none⟩) := by
  simp +decide [readTop, readGo, step, skipSpacesRead, isSpaceGo, isDigitGo,
    macroTable, zeroCh, squote, btick, lbrace, rbrace, Rdr.readRune, h]

/-- Witness for claim C10 at a concrete instance: the standard environment
    with read-eval allowed fails on the lone hash. -/
theorem c10_hash_eof_fails_before_dispatch_witness :
    ¬ (envA.readEval = .unknown) ∧
    readTop envA 3 .nilp ['#'] = (.error eofCharacterMsg, ⟨[], none⟩) :=
  ⟨by decide, c10_hash_eof_fails_before_dispatch envA (by decide) 0⟩

end GlojureReader
